import Mathlib

/-!
Shallow embedding of the `cargo debianize` packaging pass
(`src/cargo/ops/cargo_debianize.rs`) together with the pieces of the
`debian` crate it relies on (version grammar, dependency-list grammar,
control-paragraph model, changelog rendering).  The `debian` crate is not
part of this repository's sources, so those definitions are modelled from
the specification and are marked as such in their doc comments.  All other
definitions are direct transliterations of the Rust source; machine strings
are modelled as `String` (package names and control files are ASCII, so
byte indexing and character indexing coincide).
-/

/-- Character classified as whitespace for trimming. -/
def isWhite (c : Char) : Bool :=
  c == ' ' || c == '\t' || c == '\n' || c == '\r'

/-- Trim whitespace from both ends of a character list. -/
def trimChars (l : List Char) : List Char :=
  ((l.dropWhile isWhite).reverse.dropWhile isWhite).reverse

/-- Split a character list on every occurrence of a separator character.
The result is always non-empty. -/
def splitOnChar (c : Char) : List Char → List (List Char)
  | [] => [[]]
  | a :: rest =>
    let r := splitOnChar c rest
    if a == c then [] :: r
    else
      match r with
      | [] => [[a]]
      | h :: t => (a :: h) :: t

/-- Join a list of strings with a separator, as Rust's `connect`. -/
def joinSep (sep : String) : List String → String
  | [] => ""
  | [x] => x
  | x :: y :: xs => x ++ sep ++ joinSep sep (y :: xs)

/-- The six-minus-one Debian version relations used by dependency
constraints. -/
inductive VRel
  | ltLt
  | ltEq
  | eqEq
  | gtEq
  | gtGt
deriving DecidableEq, Repr

/-- Canonical textual form of a relation. -/
def VRel.render : VRel → String
  | .ltLt => "<<"
  | .ltEq => "<="
  | .eqEq => "="
  | .gtEq => ">="
  | .gtGt => ">>"

/-- Modelled from the spec: the `debian` crate's `Version` type (missing
from src/) — optional epoch, upstream string, optional Debian revision. -/
structure Version where
  epoch : Option Nat
  upstream : String
  revision : Option String
deriving DecidableEq, Repr

/-- Split a character list at its last dash: returns the part before the
last dash and, when a dash exists, the part after it. -/
def splitLastDash : List Char → List Char × Option (List Char)
  | [] => ([], none)
  | c :: rest =>
    match splitLastDash rest with
    | (u, some r) => (c :: u, some r)
    | (_, none) => if c == '-' then ([], some rest) else (c :: rest, none)

/-- Modelled from the spec: `Version::parse` of the `debian` crate (missing
from src/) — splits a leading `N:` for the epoch (failing on malformed
epoch digits) and the last `-` for the revision. -/
def Version.parse (s : String) : Except String Version :=
  let l := s.data
  let withEpoch : Except String (Option Nat × List Char) :=
    if l.any (· == ':') then
      match splitOnChar ':' l with
      | e :: rest =>
        match (String.mk e).toNat? with
        | some n => .ok (some n, (joinSep ":" (rest.map String.mk)).data)
        | none => .error ("malformed epoch in version: " ++ s)
      | [] => .error ("malformed version: " ++ s)
    else
      .ok (none, l)
  match withEpoch with
  | .error e => .error e
  | .ok (ep, body) =>
    match splitLastDash body with
    | (u, some r) => .ok ⟨ep, String.mk u, some (String.mk r)⟩
    | (u, none) => .ok ⟨ep, String.mk u, none⟩

/-- Canonical textual form of a version. -/
def Version.render (v : Version) : String :=
  (match v.epoch with
   | some e => toString e ++ ":"
   | none => "") ++
  v.upstream ++
  (match v.revision with
   | some r => "-" ++ r
   | none => "")

/-- Modelled from the spec: the `debian` crate's `SingleDependency`
(missing from src/) — package name, optional relation/version constraint,
optional architecture qualifier. -/
structure SingleDependency where
  package : String
  version : Option (VRel × Version)
  arch : Option String
deriving DecidableEq, Repr

/-- Modelled from the spec: the `debian` crate's `Dependency` (missing from
src/) — an ordered group of pipe-separated alternatives. -/
structure Dependency where
  alternatives : List SingleDependency
deriving DecidableEq, Repr

/-- Modelled from the spec: serialization of a single alternative — the
name, then the constraint as a parenthesized relation and version, then
the architecture qualifier in brackets. -/
def SingleDependency.render (d : SingleDependency) : String :=
  d.package ++
  (match d.version with
   | some (r, v) => " (" ++ r.render ++ " " ++ v.render ++ ")"
   | none => "") ++
  (match d.arch with
   | some a => " [" ++ a ++ "]"
   | none => "")

/-- Modelled from the spec: serialization of a dependency group,
alternatives joined by a pipe with surrounding spaces. -/
def Dependency.render (d : Dependency) : String :=
  joinSep " | " (d.alternatives.map SingleDependency.render)

/-- Modelled from the spec: serialization of a dependency list, groups
joined by a comma and space. -/
def renderDepList (ds : List Dependency) : String :=
  joinSep ", " (ds.map Dependency.render)

/-- Split a character list on commas that are outside parentheses. -/
def splitTopCommas : List Char → Nat → List Char → List (List Char)
  | [], _, cur => [cur.reverse]
  | c :: rest, depth, cur =>
    if c == ',' && depth == 0 then
      cur.reverse :: splitTopCommas rest 0 []
    else if c == '(' then
      splitTopCommas rest (depth + 1) (c :: cur)
    else if c == ')' then
      splitTopCommas rest (depth - 1) (c :: cur)
    else
      splitTopCommas rest depth (c :: cur)

/-- A character that may appear in a package name (no separators). -/
def nameChar (c : Char) : Bool :=
  !(c == ' ' || c == '(' || c == ')' || c == '[' || c == ']' ||
    c == '|' || c == ',')

/-- Parse a relation token. -/
def parseVRel (s : String) : Except String VRel :=
  if s == "<<" then .ok .ltLt
  else if s == "<=" then .ok .ltEq
  else if s == "=" then .ok .eqEq
  else if s == ">=" then .ok .gtEq
  else if s == ">>" then .ok .gtGt
  else .error ("unknown relation: " ++ s)

/-- Modelled from the spec: parsing one alternative of a dependency group,
of shape `name[ (relation version)][ [arch]]`; fails describing the
offending token on any other shape. -/
def parseSingleDep (s : String) : Except String SingleDependency :=
  let t := trimChars s.data
  let archSplit : Except String (List Char × Option String) :=
    if t.any (· == '[') then
      match splitOnChar '[' t with
      | [before, inner] =>
        match trimChars inner with
        | [] => .error ("empty architecture qualifier in: " ++ s)
        | ti =>
          if ti.getLast? == some ']' then
            .ok (trimChars before, some (String.mk (trimChars (ti.dropLast))))
          else
            .error ("unbalanced bracket in: " ++ s)
      | _ => .error ("malformed architecture qualifier in: " ++ s)
    else
      .ok (t, none)
  match archSplit with
  | .error e => .error e
  | .ok (base, arch) =>
    let consSplit : Except String (List Char × Option (VRel × Version)) :=
      if base.any (· == '(') then
        match splitOnChar '(' base with
        | [before, inner] =>
          match trimChars inner with
          | [] => .error ("empty constraint in: " ++ s)
          | ti =>
            if ti.getLast? == some ')' then
              let body := trimChars (ti.dropLast)
              let relPart := body.takeWhile (fun c =>
                c == '<' || c == '>' || c == '=')
              let verPart := trimChars (body.dropWhile (fun c =>
                c == '<' || c == '>' || c == '='))
              match parseVRel (String.mk relPart) with
              | .error e => .error e
              | .ok rel =>
                match Version.parse (String.mk verPart) with
                | .error e => .error e
                | .ok v => .ok (trimChars before, some (rel, v))
            else
              .error ("unbalanced parenthesis in: " ++ s)
        | _ => .error ("unbalanced parenthesis in: " ++ s)
      else
        .ok (base, none)
    match consSplit with
    | .error e => .error e
    | .ok (nm, cons) =>
      if nm.isEmpty then .error ("empty package name in: " ++ s)
      else if nm.all nameChar then
        .ok ⟨String.mk nm, cons, arch⟩
      else
        .error ("malformed package name in: " ++ s)

/-- Except-valued traversal of a list. -/
def mapExcept {α β ε : Type} (f : α → Except ε β) : List α → Except ε (List β)
  | [] => .ok []
  | a :: rest =>
    match f a with
    | .error e => .error e
    | .ok b =>
      match mapExcept f rest with
      | .error e => .error e
      | .ok bs => .ok (b :: bs)

/-- Modelled from the spec: parsing one comma-separated dependency group,
split on pipes into alternatives. -/
def parseDepGroup (s : String) : Except String Dependency :=
  match mapExcept (fun part => parseSingleDep (String.mk part))
      (splitOnChar '|' s.data) with
  | .error e => .error e
  | .ok alts => .ok ⟨alts⟩

/-- Modelled from the spec: `parse_dep_list` of the `debian` crate (missing
from src/) — splits on top-level commas (commas inside parentheses belong
to a version constraint) into groups, each split on pipes into
alternatives. -/
def parse_dep_list (s : String) : Except String (List Dependency) :=
  mapExcept (fun part => parseDepGroup (String.mk part))
    (splitTopCommas s.data 0 [])

/-- The package-name transform from `cargo_debianize.rs` lines 27-50,
transliterated exactly: note that `is_system_pkg` compares the slice
`[0 .. len-4]` (a prefix) against the literal `"-sys"`, and that the
`(true, true)` arm of the match is a Rust `panic!`, modelled as `none`. -/
def xform_pkg_name (cargo_name : String) : Option String :=
  let n := cargo_name.data
  let is_system_pkg := decide (n.length > 4) &&
    (n.take (n.length - 4) == "-sys".data)
  let rustc_prefixed := decide (n.length > 5) && (n.take 5 == "rustc".data)
  if cargo_name == "libc" then
    some "libc-rust"
  else
    match is_system_pkg, rustc_prefixed with
    | true, false => some ("lib" ++ cargo_name ++ "-rust")
    | true, true => none
    | false, false => some ("rust-" ++ cargo_name)
    | false, true => some cargo_name

/-- Modelled from the spec: the `debian` crate's `ControlParagraph`
(missing from src/) — an ordered mapping from field name to field value,
insertion order preserved. -/
structure ControlParagraph where
  fields : List (String × String)
deriving DecidableEq, Repr

/-- Fresh empty paragraph. -/
def ControlParagraph.new : ControlParagraph := ⟨[]⟩

/-- First value stored under a field name. -/
def findField (n : String) : List (String × String) → Option String
  | [] => none
  | kv :: rest => if kv.1 == n then some kv.2 else findField n rest

/-- Whether some binding uses a field name. -/
def hasField (n : String) : List (String × String) → Bool
  | [] => false
  | kv :: rest => kv.1 == n || hasField n rest

/-- Overwrite every binding of a field name in place. -/
def setField (n v : String) : List (String × String) → List (String × String)
  | [] => []
  | kv :: rest => (if kv.1 == n then (n, v) else kv) :: setField n v rest

/-- Modelled from the spec: case-sensitive field presence test. -/
def ControlParagraph.has_entry (p : ControlParagraph) (n : String) : Bool :=
  hasField n p.fields

/-- Modelled from the spec: case-sensitive field lookup. -/
def ControlParagraph.get_entry (p : ControlParagraph) (n : String) :
    Option String :=
  findField n p.fields

/-- Modelled from the spec: append a new field (callers establish absence
first). -/
def ControlParagraph.add_entry (p : ControlParagraph) (n v : String) :
    ControlParagraph :=
  ⟨p.fields ++ [(n, v)]⟩

/-- Modelled from the spec: insert-or-overwrite, preserving the original
position when the field already exists, otherwise appending. -/
def ControlParagraph.update_entry (p : ControlParagraph) (n v : String) :
    ControlParagraph :=
  if p.has_entry n then ⟨setField n v p.fields⟩
  else ⟨p.fields ++ [(n, v)]⟩

/-- Modelled from the spec: one field per line as `Name: value` with a
trailing newline; folded continuation lines are part of the value. -/
def ControlParagraph.render (p : ControlParagraph) : String :=
  String.join (p.fields.map (fun kv => kv.1 ++ ": " ++ kv.2 ++ "\n"))

/-- Modelled from the spec: the `debian` crate's `ControlFile` (missing
from src/) — an ordered sequence of paragraphs. -/
structure ControlFile where
  paragraphs : List ControlParagraph
deriving DecidableEq, Repr

/-- Modelled from the spec: paragraphs serialized in order with one blank
line between them and a trailing newline. -/
def ControlFile.render (cf : ControlFile) : String :=
  joinSep "\n" (cf.paragraphs.map ControlParagraph.render)

/-- One step of control-file line parsing: the running state is the
current paragraph's fields in reverse order plus the completed
paragraphs in reverse order. -/
def controlLineStep (st : List (String × String) × List ControlParagraph)
    (line : List Char) : Except String
      (List (String × String) × List ControlParagraph) :=
  let (cur, paras) := st
  match line with
  | [] =>
    match cur with
    | [] => .ok ([], paras)
    | _ => .ok ([], ⟨cur.reverse⟩ :: paras)
  | c :: _ =>
    if c == ' ' || c == '\t' then
      match cur with
      | [] => .error ("continuation line without a field: " ++ String.mk line)
      | (n, v) :: rest => .ok ((n, v ++ "\n" ++ String.mk line) :: rest, paras)
    else if line.any (· == ':') then
      match splitOnChar ':' line with
      | [] => .error ("malformed field line: " ++ String.mk line)
      | nm :: rest =>
        let raw := (joinSep ":" (rest.map String.mk)).data
        let value := match raw with
          | ' ' :: r => r
          | r => r
        .ok ((String.mk nm, String.mk value) :: cur, paras)
    else
      .error ("malformed field line: " ++ String.mk line)

/-- Fold control-file parsing over a list of lines. -/
def controlLinesFold (st : List (String × String) × List ControlParagraph) :
    List (List Char) → Except String
      (List (String × String) × List ControlParagraph)
  | [] => .ok st
  | l :: rest =>
    match controlLineStep st l with
    | .error e => .error e
    | .ok st2 => controlLinesFold st2 rest

/-- Modelled from the spec: `ControlFile::from_file` (missing from src/) —
RFC822-style paragraphs separated by blank lines, a line beginning with
whitespace continuing the previous field's value. -/
def ControlFile.parse (s : String) : Except String ControlFile :=
  match controlLinesFold ([], []) (splitOnChar '\n' s.data) with
  | .error e => .error e
  | .ok (cur, paras) =>
    let paras := match cur with
      | [] => paras
      | _ => ⟨cur.reverse⟩ :: paras
    .ok ⟨paras.reverse⟩

/-- Outcome of a failed run: `human` models an error value returned to the
caller as `CargoResult::Err` (through `human(..)`); `panicked` models a
Rust `panic!` or a failing `unwrap`, i.e. an unconditional process
abort. -/
inductive DebErr
  | human (msg : String)
  | panicked (msg : String)
deriving DecidableEq, Repr

/-- Dependency kinds of the external project model (`core::dependency`). -/
inductive DepKind
  | normal
  | development
  | build
deriving DecidableEq, Repr, BEq

/-- Modelled from the spec: one dependency declaration of the external
project model — name, kind, source locality (`is_path` means a local-path
source), optional flag. -/
structure CrateDep where
  name : String
  kind : DepKind
  is_path : Bool
  optional : Bool
deriving DecidableEq, Repr

/-- Modelled from the spec: a build target's build metadata. -/
structure TargetMetadata where
  metadata : String
  extra_filename : String
deriving DecidableEq, Repr

/-- Modelled from the spec: one build target of the external project
model. -/
structure CrateTarget where
  name : String
  is_lib : Bool
  profile_env : String
  src_path : String
  meta : TargetMetadata
deriving DecidableEq, Repr

/-- Modelled from the spec: the already-resolved external project model
consumed by the merge engine. -/
structure Pkg where
  name : String
  version : String
  description : Option String
  homepage : Option String
  repository : Option String
  dependencies : List CrateDep
  targets : List CrateTarget
deriving DecidableEq, Repr

/-- Modelled from the spec: injected configuration for the
environment-derived default maintainer and the changelog date. -/
structure Cfg where
  maintainer_name : String
  maintainer_email : String
  date : String
deriving DecidableEq, Repr

/-- `HashMap::insert` on the name-to-alternative lookup: a later insert
for the same key replaces the earlier value. -/
def depMapInsert (m : List (String × SingleDependency)) (k : String)
    (v : SingleDependency) : List (String × SingleDependency) :=
  if m.any (fun kv => kv.1 == k) then
    m.map (fun kv => if kv.1 == k then (k, v) else kv)
  else
    m ++ [(k, v)]

/-- `HashMap::contains_key` on the lookup. -/
def depMapContains (m : List (String × SingleDependency)) (k : String) :
    Bool :=
  m.any (fun kv => kv.1 == k)

/-- The lookup built at `cargo_debianize.rs` lines 233-238: every
alternative of every existing group, keyed by package name. -/
def buildDepMap (ds : List Dependency) : List (String × SingleDependency) :=
  ds.foldl (fun m d =>
    d.alternatives.foldl (fun m dep => depMapInsert m dep.package dep) m) []

/-- The single-alternative `<name>-dev` group appended for a project
dependency (`cargo_debianize.rs` lines 302-309). -/
def mkDevDep (deb_name : String) : Dependency :=
  ⟨[⟨deb_name ++ "-dev", none, none⟩]⟩

/-- The per-dependency loop of `cargo_debianize.rs` lines 267-312:
local-path development dependencies are skipped; otherwise the transformed
name is looked up in the map built from the existing fields and, when the
transformed name is absent, a `<transformed-name>-dev` group is appended.
A `panic!` inside `xform_pkg_name` aborts the loop. -/
def syncDeps (dep_map : List (String × SingleDependency)) :
    List CrateDep → Except DebErr (List Dependency)
  | [] => .ok []
  | d :: rest =>
    if d.is_path && d.kind == DepKind.development then
      syncDeps dep_map rest
    else
      match xform_pkg_name d.name with
      | none => .error (.panicked "does this make any sense?")
      | some deb_name =>
        match syncDeps dep_map rest with
        | .error e => .error e
        | .ok ds =>
          .ok ((if depMapContains dep_map deb_name then []
                else [mkDevDep deb_name]) ++ ds)

/-- The minimum debhelper version literal of `cargo_debianize.rs`
line 248. -/
def debhelperVersionText : String := "9.20150101.1+nmu1"

/-- Build-Depends synchronization, `cargo_debianize.rs` lines 217-318:
parse the existing Build-Depends and Build-Depends-Indep fields (a parse
failure is returned through `human`), build the name lookup over both,
append debhelper and rustc when their names are absent, run the
per-dependency loop, and overwrite Build-Depends with the re-serialized
accumulated list.  The `.ok().unwrap()` on the debhelper version parse is
modelled as a `panicked` outcome on the (never taken) failure branch. -/
def syncBuildDeps (pkg : Pkg) (gp : ControlParagraph) :
    Except DebErr ControlParagraph :=
  match (match gp.get_entry "Build-Depends" with
         | some v => parse_dep_list v
         | none => .ok []) with
  | .error e => .error (.human e)
  | .ok cur_bd =>
    match (match gp.get_entry "Build-Depends-Indep" with
           | some v => parse_dep_list v
           | none => .ok []) with
    | .error e => .error (.human e)
    | .ok cur_bdi =>
      let dep_map := buildDepMap (cur_bd ++ cur_bdi)
      match ((if depMapContains dep_map "debhelper" then .ok []
              else
                match Version.parse debhelperVersionText with
                | .ok v =>
                  .ok [Dependency.mk [⟨"debhelper", some (VRel.gtEq, v), none⟩]]
                | .error _ =>
                  .error (DebErr.panicked
                    "called Option::unwrap on a None value")) :
             Except DebErr (List Dependency)) with
      | .error e => .error e
      | .ok dh =>
        let rc := if depMapContains dep_map "rustc" then []
                  else [Dependency.mk [⟨"rustc", none, none⟩]]
        match syncDeps dep_map pkg.dependencies with
        | .error e => .error e
        | .ok ds =>
          .ok (gp.update_entry "Build-Depends"
                (renderDepList (cur_bd ++ dh ++ rc ++ ds)))

/-- One `if !gp.has_entry(..) { gp.add_entry(..) }` step of the default
field population (`cargo_debianize.rs` lines 194-215). -/
def defaultEntry (g d : String) (gp : ControlParagraph) : ControlParagraph :=
  if gp.has_entry g then gp else gp.add_entry g d

/-- Default field population, `cargo_debianize.rs` lines 194-215: each of
the five fields receives its fixed default only when absent. -/
def addDefaults (cfg : Cfg) (gp : ControlParagraph) : ControlParagraph :=
  defaultEntry "Standards-Version" "3.9.6"
    (defaultEntry "Uploaders"
      (cfg.maintainer_name ++ " <" ++ cfg.maintainer_email ++ ">")
      (defaultEntry "Maintainer" "Debian Rust Team <rust@debian.org>"
        (defaultEntry "Section" "rust"
          (defaultEntry "Priority" "optional" gp))))

/-- Forced repository and homepage fields, `cargo_debianize.rs`
lines 320-332. -/
def setVcsHomepage (pkg : Pkg) (gp : ControlParagraph) : ControlParagraph :=
  let gp := match pkg.repository with
    | some val => (gp.update_entry "Vcs-Git" val).update_entry "Vcs-Browser" val
    | none => gp
  match pkg.homepage with
  | some val => gp.update_entry "Homepage" val
  | none => gp

/-- Source-paragraph acquisition, `cargo_debianize.rs` lines 171-192:
clone the first paragraph of an existing control file; start a fresh
paragraph carrying only Source when there is no control file or it has no
first paragraph; a control-file parse failure is returned through
`human`. -/
def sourceParaAcquire (dsn : String) (existing : Option String) :
    Except DebErr ControlParagraph :=
  match existing with
  | none => .ok (ControlParagraph.new.add_entry "Source" dsn)
  | some txt =>
    match ControlFile.parse txt with
    | .error e => .error (.human e)
    | .ok cf =>
      match cf.paragraphs.head? with
      | some p => .ok p
      | none => .ok (ControlParagraph.new.add_entry "Source" dsn)

/-- The source paragraph after default population, Build-Depends
synchronization and the forced Vcs/Homepage fields
(`cargo_debianize.rs` lines 194-332). -/
def mergeSourcePara (pkg : Pkg) (cfg : Cfg) (gp : ControlParagraph) :
    Except DebErr ControlParagraph :=
  match syncBuildDeps pkg (addDefaults cfg gp) with
  | .error e => .error e
  | .ok gp2 => .ok (setVcsHomepage pkg gp2)

/-- The trimmed, line-folded long description
(`cargo_debianize.rs` lines 400-406). -/
def longDescOf (desc : Option String) : Option String :=
  desc.map (fun s =>
    joinSep "\n " ((splitOnChar '\n' (trimChars s.data)).map String.mk))

/-- Release-profile library targets (`cargo_debianize.rs` lines 351-352). -/
def libRelease (t : CrateTarget) : Bool :=
  t.is_lib && t.profile_env == "release"

/-- The runtime-library binary paragraph
(`cargo_debianize.rs` lines 408-425). -/
def dylibPara (dsn version : String) (ld : Option String) :
    ControlParagraph :=
  ((((ControlParagraph.new.add_entry "Package"
      (dsn ++ "-" ++ version)).add_entry
      "Architecture" "amd64 i386").add_entry
      "Pre-Depends" "$\x7bmisc:Pre-Depends\x7d").add_entry
      "Depends" "$\x7bmisc:Depends\x7d, $\x7bshlibs:Depends\x7d").add_entry
      "Description" (dsn ++ "rust crate - dylib" ++
        (match ld with
         | some s => "\n " ++ s ++
             "\n .\n This package contains the dynamic library."
         | none => ""))

/-- The development binary paragraph
(`cargo_debianize.rs` lines 427-442). -/
def devPara (dsn : String) (ld : Option String) : ControlParagraph :=
  ((((ControlParagraph.new.add_entry "Package"
      (dsn ++ "-dev")).add_entry
      "Architecture" "amd64 i386").add_entry
      "Pre-Depends" "$\x7bmisc:Pre-Depends\x7d").add_entry
      "Depends" "$\x7bmisc:Depends\x7d, $\x7bshlibs:Depends\x7d").add_entry
      "Description" (dsn ++ "rust crate - rlib and staticlib" ++
        (match ld with
         | some s => "\n " ++ s ++
             "\n .\n This package contains the static and rlib variants of the library."
         | none => ""))

/-- Two binary paragraphs per release-profile library target
(`cargo_debianize.rs` lines 351-352 and 398-442). -/
def binaryParas (pkg : Pkg) (dsn : String) : List ControlParagraph :=
  (pkg.targets.filter libRelease).flatMap (fun _t =>
    [dylibPara dsn pkg.version (longDescOf pkg.description),
     devPara dsn (longDescOf pkg.description)])

/-- The merge engine at the paragraph level: transformed source name,
source-paragraph acquisition, source-paragraph merge, then the binary
paragraphs (`cargo_debianize.rs` lines 123 and 171-442). -/
def mergeEngineParas (pkg : Pkg) (cfg : Cfg) (existing : Option String) :
    Except DebErr (List ControlParagraph) :=
  match xform_pkg_name pkg.name with
  | none => .error (.panicked "does this make any sense?")
  | some dsn =>
    match sourceParaAcquire dsn existing with
    | .error e => .error e
    | .ok gp0 =>
      match mergeSourcePara pkg cfg gp0 with
      | .error e => .error e
      | .ok gp => .ok (gp :: binaryParas pkg dsn)

/-- The merge engine producing the serialized control-file text. -/
def mergeEngine (pkg : Pkg) (cfg : Cfg) (existing : Option String) :
    Except DebErr String :=
  match mergeEngineParas pkg cfg existing with
  | .error e => .error e
  | .ok ps => .ok (ControlFile.render ⟨ps⟩)

/-- Lookup of the value at a key in an association list (first match). -/
def findKV (l : List (String × String)) (p : String) : Option String :=
  match l with
  | [] => none
  | kv :: rest => if kv.1 == p then some kv.2 else findKV rest p

/-- Replace the value at a key, or append the binding when absent. -/
def setKV (l : List (String × String)) (p v : String) :
    List (String × String) :=
  match l with
  | [] => [(p, v)]
  | kv :: rest => if kv.1 == p then (p, v) :: rest else kv :: setKV rest p v

/-- The filesystem visible to one run, as a finite map from relative path
to file content.  A present key models an existing file; `write` models
`File::create` followed by a full write. -/
structure FS where
  entries : List (String × String)
deriving DecidableEq, Repr

/-- File content at a path, `none` when the file does not exist. -/
def FS.lookup (fs : FS) (p : String) : Option String :=
  findKV fs.entries p

/-- Create or overwrite the file at a path. -/
def FS.write (fs : FS) (p v : String) : FS :=
  ⟨setKV fs.entries p v⟩

/-- Write a file only when it does not already exist, as the
`if !path.exists() { File::create(..) ... }` pattern of
`cargo_debianize.rs` lines 570-632. -/
def FS.writeIfAbsent (fs : FS) (p v : String) : FS :=
  if (fs.lookup p).isSome then fs else fs.write p v

/-- Modelled from the spec: the single-entry changelog text produced by
`Changelog::to_file` of the `debian` crate (missing from src/) — header
line, detail lines, trailer with the injected maintainer and date. -/
def changelogText (cfg : Cfg) (name version detail : String) : String :=
  name ++ " (" ++ version ++ ") UNRELEASED; urgency=low\n\n" ++ detail ++
  "\n -- " ++ cfg.maintainer_name ++ " <" ++ cfg.maintainer_email ++ ">  " ++
  cfg.date ++ "\n"

/-- Content of the `<pkg>-<version>.install` file
(`cargo_debianize.rs` line 456). -/
def libInstallText (tname : String) : String :=
  "/usr/lib/x86_64-linux-gnu/rust/1.0/lib/rustlib/x86_64-unknown-linux-gnu/lib/lib"
  ++ tname ++ "-*.so\n"

/-- Content of the `<pkg>-dev.install` file
(`cargo_debianize.rs` line 471). -/
def devInstallText (tname : String) : String :=
  "/usr/lib/x86_64-linux-gnu/rust/1.0/lib/rustlib/x86_64-unknown-linux-gnu/lib/lib"
  ++ tname ++ "-*.rlib\n" ++
  "/usr/lib/x86_64-linux-gnu/rust/1.0/lib/rustlib/x86_64-unknown-linux-gnu/lib/lib"
  ++ tname ++ "-*.a\n"

/-- The two `.install` files written unconditionally for every
release-profile library target (`cargo_debianize.rs` lines 445-475). -/
def writeInstallFiles (pkg : Pkg) (dsn : String) (fs : FS) : FS :=
  (pkg.targets.filter libRelease).foldl (fun fs t =>
    (fs.write ("debian/" ++ dsn ++ "-" ++ pkg.version ++ ".install")
        (libInstallText t.name)).write
      ("debian/" ++ dsn ++ "-dev.install") (devInstallText t.name)) fs

/-- A makefile rule: target, dependencies, tab-indented command lines
(`cargo_debianize.rs` lines 52-90). -/
structure MakefileRule where
  target : String
  deps : List String
  rules : List String
deriving DecidableEq, Repr

/-- `MakefileRule::serialize` (`cargo_debianize.rs` lines 85-89). -/
def MakefileRule.serialize (r : MakefileRule) : String :=
  r.target ++ ": " ++ joinSep " " r.deps ++ "\n\t" ++ joinSep "\n\t" r.rules

/-- The stamp-file name of a library target
(`cargo_debianize.rs` line 354). -/
def stampOf (t : CrateTarget) : String :=
  "build/lib" ++ t.name ++ ".stamp"

/-- The stamp rule with its compiler invocation
(`cargo_debianize.rs` lines 366-375).  The `crate_src_path` relativization
is out-of-scope path handling; the target's source path stands for its
result. -/
def stampRule (t : CrateTarget) : MakefileRule :=
  ⟨stampOf t, [],
   ["@if test ! -d build; then mkdir build; fi",
    "rustc " ++ t.src_path ++ " --crate-name " ++ t.name ++
      " --crate-type staticlib,rlib,dylib -C prefer-dynamic -C opt-level=3 --cfg ndebug -C metadata="
      ++ t.meta.metadata ++ " -C extra-filename=" ++ t.meta.extra_filename ++
      " --out-dir build --emit=dep-info,link",
    "touch " ++ stampOf t]⟩

/-- The per-target state of the makefile loop: accumulated rules, library
files to install, and stamp targets for the `all` rule
(`cargo_debianize.rs` lines 348-396).  The two `mk_rules.reverse()` calls
inside the install-file blocks (lines 455 and 470) are retained; they
cancel within each iteration. -/
def mkRulesStep (pv : String)
    (acc : List MakefileRule × List String × List String) (t : CrateTarget) :
    List MakefileRule × List String × List String :=
  let _ := pv
  let (mk, libs, alls) := acc
  let dylib := "build/lib" ++ t.name ++ t.meta.extra_filename ++ ".so"
  let rlib := "build/lib" ++ t.name ++ t.meta.extra_filename ++ ".rlib"
  let staticlib := "build/lib" ++ t.name ++ t.meta.extra_filename ++ ".a"
  let mk := mk ++ [stampRule t, ⟨dylib, [stampOf t], []⟩,
                   ⟨rlib, [stampOf t], []⟩, ⟨staticlib, [stampOf t], []⟩]
  let mk := mk.reverse
  let mk := mk.reverse
  (mk, libs ++ [dylib, rlib, staticlib], alls ++ [stampOf t])

/-- The full `Makefile.cargo` text (`cargo_debianize.rs` lines 348-528):
target rules, the `check`, `install` and `all` rules, reversed and joined
by blank lines under the machine-generated header. -/
def makefileText (pkg : Pkg) : String :=
  let (mk, libs, alls) :=
    (pkg.targets.filter libRelease).foldl (mkRulesStep pkg.version)
      ([], [], [])
  let checkRule : MakefileRule := ⟨"check", ["all"], []⟩
  let installRule : MakefileRule :=
    ⟨"install", ["all"],
     ["install -d $(DESTDIR)/usr/lib/x86_64-linux-gnu/rust/1.0/lib/rustlib/x86_64-unknown-linux-gnu/lib/"]
       ++ libs.map (fun lib =>
         "install -m 644 -s " ++ lib ++
         " $(DESTDIR)/usr/lib/x86_64-linux-gnu/rust/1.0/lib/rustlib/x86_64-unknown-linux-gnu/lib/")⟩
  let allRule : MakefileRule := ⟨"all", alls, []⟩
  let mk := (mk ++ [checkRule, installRule, allRule]).reverse
  "#!/usr/bin/make -f\n\n# Automatically generated by cargo. DO NOT EDIT.\n\n"
  ++ joinSep "\n\n" (mk.map MakefileRule.serialize) ++ "\n"

/-- One full packaging pass over the filesystem, `cargo_debianize.rs`
lines 92-640, in source order: the name transform (whose `panic!` aborts
the run), the changelog step (an existing changelog is an unconditional
`panic!`, line 152; otherwise the fresh changelog is written immediately),
the control-file merge computation (whose parse failures abort the run
after the changelog write), then the unconditional `.install` and
`Makefile.cargo` writes, the only-if-absent `compat`, `source/format` and
`rules` writes, and finally the control-file write.  The first component
is `none` on success; writes performed before an abort persist in the
returned filesystem. -/
def debianize (pkg : Pkg) (cfg : Cfg) (fs : FS) : Option DebErr × FS :=
  match xform_pkg_name pkg.name with
  | none => (some (.panicked "does this make any sense?"), fs)
  | some dsn =>
    match fs.lookup "debian/changelog" with
    | some _ => (some (.panicked "Updating changelog not implemented, yet."),
                 fs)
    | none =>
      let fs := fs.write "debian/changelog"
        (changelogText cfg dsn (pkg.version ++ "-1")
          "  * Initial debianization by cargo.\n")
      match mergeEngine pkg cfg (fs.lookup "debian/control") with
      | .error e => (some e, fs)
      | .ok ctext =>
        let fs := writeInstallFiles pkg dsn fs
        let fs := fs.write "debian/Makefile.cargo" (makefileText pkg)
        let fs := fs.writeIfAbsent "debian/compat" "9\n"
        let fs := fs.writeIfAbsent "debian/source/format" "3.0 (quilt)\n"
        let fs := fs.writeIfAbsent "debian/rules" "#!/usr/bin/make -f\n\n%:\n\tdh $@\n"
        (none, fs.write "debian/control" ctext)

/-! Supporting lemmas about the field-list operations of control
paragraphs. -/

theorem findField_append_of_found (l : List (String × String))
    (x : String × String) (f v : String) (h : findField f l = some v) :
    findField f (l ++ [x]) = some v := by
  induction l with
  | nil => simp [findField] at h
  | cons kv t ih =>
    simp only [List.cons_append, findField] at h ⊢
    split at h
    · rename_i hc; rw [if_pos hc]; exact h
    · rename_i hc; rw [if_neg hc]; exact ih h

theorem findField_append_ne (l : List (String × String)) (g d f : String)
    (hne : f ≠ g) : findField f (l ++ [(g, d)]) = findField f l := by
  have hgf : ((g : String) == f) = false := by
    simp only [beq_eq_false_iff_ne]
    exact hne.symm
  induction l with
  | nil =>
    simp only [List.nil_append, findField, hgf, Bool.false_eq_true, if_false]
  | cons kv t ih =>
    simp only [List.cons_append, findField, List.append_eq, ih]

theorem findField_setField_ne (l : List (String × String)) (g d f : String)
    (hne : f ≠ g) : findField f (setField g d l) = findField f l := by
  have hgf : ((g : String) == f) = false := by
    simp only [beq_eq_false_iff_ne]
    exact hne.symm
  induction l with
  | nil => rfl
  | cons kv t ih =>
    simp only [setField]
    by_cases hk : (kv.1 == g) = true
    · have hk1 : kv.1 = g := by simpa using hk
      have hkf : (kv.1 == f) = false := by rw [hk1]; exact hgf
      rw [if_pos hk]
      simp only [findField, hgf, hkf, Bool.false_eq_true, if_false]
      exact ih
    · rw [if_neg hk]
      simp only [findField, ih]

theorem hasField_append_of (l : List (String × String))
    (x : String × String) (f : String) (h : hasField f l = true) :
    hasField f (l ++ [x]) = true := by
  induction l with
  | nil => simp [hasField] at h
  | cons kv t ih =>
    simp only [List.cons_append, hasField, Bool.or_eq_true] at h ⊢
    rcases h with h | h
    · exact Or.inl h
    · exact Or.inr (ih h)

theorem hasField_setField_of (l : List (String × String)) (g d f : String)
    (h : hasField f l = true) : hasField f (setField g d l) = true := by
  induction l with
  | nil => simp [hasField] at h
  | cons kv t ih =>
    simp only [setField, hasField, Bool.or_eq_true] at h ⊢
    by_cases hk : (kv.1 == g) = true
    · rw [if_pos hk]
      rcases h with h | h
      · have hk1 : kv.1 = g := by simpa using hk
        have hf1 : kv.1 = f := by simpa using h
        left
        show ((g, d).1 == f) = true
        simp [← hk1, hf1]
      · exact Or.inr (ih h)
    · rw [if_neg hk]
      rcases h with h | h
      · exact Or.inl h
      · exact Or.inr (ih h)

/-! Supporting lemmas about the paragraph operations. -/

theorem get_entry_add_entry_of_found (p : ControlParagraph) (g d f v : String)
    (h : p.get_entry f = some v) : (p.add_entry g d).get_entry f = some v := by
  obtain ⟨l⟩ := p
  exact findField_append_of_found l (g, d) f v h

theorem has_entry_add_entry_of (p : ControlParagraph) (g d f : String)
    (h : p.has_entry f = true) : (p.add_entry g d).has_entry f = true := by
  obtain ⟨l⟩ := p
  exact hasField_append_of l (g, d) f h

theorem get_entry_update_entry_ne (p : ControlParagraph) (g d f : String)
    (hne : f ≠ g) : (p.update_entry g d).get_entry f = p.get_entry f := by
  obtain ⟨l⟩ := p
  simp only [ControlParagraph.update_entry]
  split
  · exact findField_setField_ne l g d f hne
  · exact findField_append_ne l g d f hne

theorem has_entry_update_entry_of (p : ControlParagraph) (g d f : String)
    (h : p.has_entry f = true) : (p.update_entry g d).has_entry f = true := by
  obtain ⟨l⟩ := p
  simp only [ControlParagraph.update_entry]
  split
  · exact hasField_setField_of l g d f h
  · exact hasField_append_of l (g, d) f h

theorem get_entry_defaultEntry_of_found (g d f v : String)
    (p : ControlParagraph) (h : p.get_entry f = some v) :
    (defaultEntry g d p).get_entry f = some v := by
  unfold defaultEntry
  split
  · exact h
  · exact get_entry_add_entry_of_found p g d f v h

theorem has_entry_defaultEntry_of (g d f : String) (p : ControlParagraph)
    (h : p.has_entry f = true) :
    (defaultEntry g d p).has_entry f = true := by
  unfold defaultEntry
  split
  · exact h
  · exact has_entry_add_entry_of p g d f h

theorem get_entry_addDefaults_of_found (cfg : Cfg) (p : ControlParagraph)
    (f v : String) (h : p.get_entry f = some v) :
    (addDefaults cfg p).get_entry f = some v := by
  unfold addDefaults
  exact get_entry_defaultEntry_of_found _ _ _ _ _
    (get_entry_defaultEntry_of_found _ _ _ _ _
      (get_entry_defaultEntry_of_found _ _ _ _ _
        (get_entry_defaultEntry_of_found _ _ _ _ _
          (get_entry_defaultEntry_of_found _ _ _ _ _ h))))

theorem has_entry_addDefaults_of (cfg : Cfg) (p : ControlParagraph)
    (f : String) (h : p.has_entry f = true) :
    (addDefaults cfg p).has_entry f = true := by
  unfold addDefaults
  exact has_entry_defaultEntry_of _ _ _ _
    (has_entry_defaultEntry_of _ _ _ _
      (has_entry_defaultEntry_of _ _ _ _
        (has_entry_defaultEntry_of _ _ _ _
          (has_entry_defaultEntry_of _ _ _ _ h))))

theorem syncBuildDeps_ok_shape (pkg : Pkg) (q q' : ControlParagraph)
    (h : syncBuildDeps pkg q = .ok q') :
    ∃ s, q' = q.update_entry "Build-Depends" s := by
  simp only [syncBuildDeps] at h
  split at h
  · exact absurd h (by simp)
  · split at h
    · exact absurd h (by simp)
    · split at h
      · exact absurd h (by simp)
      · split at h
        · exact absurd h (by simp)
        · exact ⟨_, (by simpa using h.symm)⟩

theorem get_entry_setVcsHomepage_ne (pkg : Pkg) (q : ControlParagraph)
    (f : String) (h1 : f ≠ "Vcs-Git") (h2 : f ≠ "Vcs-Browser")
    (h3 : f ≠ "Homepage") :
    (setVcsHomepage pkg q).get_entry f = q.get_entry f := by
  unfold setVcsHomepage
  cases pkg.repository <;> cases pkg.homepage <;>
    simp [get_entry_update_entry_ne, h1, h2, h3]

theorem has_entry_setVcsHomepage_of (pkg : Pkg) (q : ControlParagraph)
    (f : String) (h : q.has_entry f = true) :
    (setVcsHomepage pkg q).has_entry f = true := by
  unfold setVcsHomepage
  cases pkg.repository <;> cases pkg.homepage
  · exact h
  · exact has_entry_update_entry_of _ _ _ _ h
  · exact has_entry_update_entry_of _ _ _ _
      (has_entry_update_entry_of _ _ _ _ h)
  · exact has_entry_update_entry_of _ _ _ _
      (has_entry_update_entry_of _ _ _ _
        (has_entry_update_entry_of _ _ _ _ h))

/-- Shared totality fact for the name transform: the two guards of the
`panic!` arm are mutually exclusive (`is_system_pkg` forces the name to
begin with a dash while `rustc_prefixed` forces it to begin with an r), so
every input reaches a returning arm. -/
theorem xform_pkg_name_isSome (s : String) :
    (xform_pkg_name s).isSome = true := by
  simp only [xform_pkg_name]
  split
  · rfl
  · cases hsys : (decide (s.data.length > 4) &&
        (s.data.take (s.data.length - 4) == "-sys".data)) with
    | false =>
      cases hpre : (decide (s.data.length > 5) && (s.data.take 5 == "rustc".data)) with
      | true => rfl
      | false => rfl
    | true =>
      cases hpre : (decide (s.data.length > 5) && (s.data.take 5 == "rustc".data)) with
      | false => rfl
      | true =>
        exfalso
        rw [Bool.and_eq_true, decide_eq_true_eq, beq_iff_eq] at hsys hpre
        obtain ⟨hlen4, htake4⟩ := hsys
        obtain ⟨hlen5, htake5⟩ := hpre
        have hsysl : "-sys".data = ['-', 's', 'y', 's'] := rfl
        have hrustcl : "rustc".data = ['r', 'u', 's', 't', 'c'] := rfl
        rw [hsysl] at htake4
        rw [hrustcl] at htake5
        have hlen : s.data.length - 4 = 4 := by
          have hl := congrArg List.length htake4
          rw [List.length_take] at hl
          simp only [List.length_cons, List.length_nil] at hl
          omega
        rw [hlen] at htake4
        cases hd : s.data with
        | nil => rw [hd] at hlen4; simp at hlen4
        | cons a t =>
          rw [hd] at htake4 htake5
          simp only [List.take_succ_cons, List.cons.injEq] at htake4 htake5
          rw [htake4.1] at htake5
          exact absurd htake5.1 (by decide)

/-- C10: The package-name transform is pure and total: every input name
reaches a returning arm of the match; in particular the `panic!` arm for
names classified as both system-library-wrapping and rustc-prefixed is
never reached, so `xform_pkg_name` never produces the `none` (panic)
outcome. -/
theorem xform_pkg_name_total (s : String) :
    (xform_pkg_name s).isSome = true :=
  xform_pkg_name_isSome s

/-- C4: Evaluation of the package-name transform at the four names of the
claim.  The code agrees on `libc`, `rustc-serialize` and `glob` but
returns `rust-foo-sys` for `foo-sys`: the `is_system_pkg` test slices the
prefix `[0 .. len-4]` instead of the `-sys` suffix, so `foo-sys` is not
recognized as a system-library wrapper (and the `lib<name>-rust` arm would
keep the full name anyway), contradicting the claimed `libfoo-rust`. -/
theorem xform_pkg_name_examples_eval :
    xform_pkg_name "libc" = some "libc-rust" ∧
    xform_pkg_name "foo-sys" = some "rust-foo-sys" ∧
    xform_pkg_name "rustc-serialize" = some "rustc-serialize" ∧
    xform_pkg_name "glob" = some "rust-glob" := by
  refine ⟨?_, ?_, ?_, ?_⟩ <;> decide

/-- The per-dependency loop ignores local-path development dependencies:
filtering them out of the input list leaves its result unchanged. -/
theorem syncDeps_filter (m : List (String × SingleDependency))
    (deps : List CrateDep) :
    syncDeps m (deps.filter
      (fun d => !(d.is_path && d.kind == DepKind.development))) =
    syncDeps m deps := by
  induction deps with
  | nil => rfl
  | cons d rest ih =>
    by_cases hd : (d.is_path && d.kind == DepKind.development) = true
    · rw [List.filter_cons_of_neg (by simp [hd])]
      rw [ih]
      simp [syncDeps, hd]
    · have hd2 : (d.is_path && d.kind == DepKind.development) = false := by
        simpa using hd
      rw [List.filter_cons_of_pos (by simp [hd2])]
      simp only [syncDeps, hd2, Bool.false_eq_true, if_false, ih]

/-- C9: Local-path development dependencies contribute nothing to the
merge engine's output: removing every such dependency from the project
model leaves the produced control-file text unchanged, so in particular
no Build-Depends entry is derived from them. -/
theorem mergeEngine_skips_path_dev_deps (pkg : Pkg) (cfg : Cfg)
    (existing : Option String) :
    mergeEngine
      { pkg with dependencies := (pkg.dependencies.filter (fun d => !(d.is_path && d.kind == DepKind.development))) }
      cfg existing =
    mergeEngine pkg cfg existing := by
  cases pkg with
  | mk nm ver desc hp rp deps ts =>
    simp only [mergeEngine, mergeEngineParas, mergeSourcePara, syncBuildDeps,
      binaryParas, sourceParaAcquire, setVcsHomepage, addDefaults,
      syncDeps_filter]

/-- C7: For each of Priority, Section, Maintainer, Uploaders and
Standards-Version, a value already present in the acquired source
paragraph survives the merge unchanged: the defaults are added only when
the field is absent, and the later Build-Depends and Vcs/Homepage updates
touch other fields only. -/
theorem mergeSourcePara_preserves_existing_fields (pkg : Pkg) (cfg : Cfg)
    (gp out : ControlParagraph) (f v : String)
    (hf : f = "Priority" ∨ f = "Section" ∨ f = "Maintainer" ∨
          f = "Uploaders" ∨ f = "Standards-Version")
    (hv : gp.get_entry f = some v)
    (hok : mergeSourcePara pkg cfg gp = .ok out) :
    out.get_entry f = some v := by
  simp only [mergeSourcePara] at hok
  cases hsync : syncBuildDeps pkg (addDefaults cfg gp) with
  | error e => rw [hsync] at hok; exact absurd hok (by simp)
  | ok gp2 =>
    rw [hsync] at hok
    have hout : out = setVcsHomepage pkg gp2 := by
      have := hok
      simp only [Except.ok.injEq] at this
      exact this.symm
    obtain ⟨s, hs⟩ := syncBuildDeps_ok_shape pkg (addDefaults cfg gp) gp2 hsync
    have hbd : f ≠ "Build-Depends" := by
      rcases hf with h | h | h | h | h <;> (subst h; decide)
    have h1 : f ≠ "Vcs-Git" := by
      rcases hf with h | h | h | h | h <;> (subst h; decide)
    have h2 : f ≠ "Vcs-Browser" := by
      rcases hf with h | h | h | h | h <;> (subst h; decide)
    have h3 : f ≠ "Homepage" := by
      rcases hf with h | h | h | h | h <;> (subst h; decide)
    rw [hout, get_entry_setVcsHomepage_ne pkg gp2 f h1 h2 h3, hs,
      get_entry_update_entry_ne _ _ _ _ hbd]
    exact get_entry_addDefaults_of_found cfg gp f v hv

/-- Shared deterministic configuration standing for the injected
environment values of one run. -/
def cfgX : Cfg := ⟨"Jane Doe", "jane@example.org",
  "Thu, 01 Jan 2015 00:00:00 +0000"⟩

/-- Project model for the C7 witness: a crate with no dependencies and no
targets. -/
def pkgW7 : Pkg := ⟨"x", "1.0", none, none, none, [], []⟩

/-- Acquired source paragraph for the C7 witness: Priority is already
`extra`. -/
def gpW7 : ControlParagraph := ⟨[("Priority", "extra")]⟩

/-- The merged source paragraph of the C7 witness run. -/
def outW7 : ControlParagraph :=
  match mergeSourcePara pkgW7 cfgX gpW7 with
  | .ok p => p
  | .error _ => ControlParagraph.new

/-- C7 witness: on a concrete run whose existing paragraph already says
`Priority: extra`, the merged paragraph still says `Priority: extra`. -/
theorem mergeSourcePara_preserves_existing_fields_witness :
    outW7.get_entry "Priority" = some "extra" :=
  mergeSourcePara_preserves_existing_fields pkgW7 cfgX gpW7 outW7
    "Priority" "extra" (Or.inl rfl) rfl rfl

/-- Project model for the C8 counterexample: a crate with no dependencies
and no targets. -/
def pkgC8 : Pkg := ⟨"c8", "1.0", none, none, none, [], []⟩

/-- C8 counterexample: with an existing control file whose first paragraph
is `Priority: extra` and carries no Source field, the merge pass completes
and its first output paragraph still has no Source field — the engine adds
Source only when it generates a fresh paragraph, never to a cloned one.
This refutes the claim for existing control files lacking Source. -/
theorem merged_first_para_may_lack_source_cex :
    (mergeEngineParas pkgC8 cfgX (some "Priority: extra\n")).map
      (fun l => l.map (fun q => q.has_entry "Source")) =
    .ok [false] := rfl

/-- C8 amended: the first paragraph of the merge result carries a Source
field whenever the run does not clone an existing first paragraph that
already lacks one — that is, whenever every parse of the existing control
file yielding a first paragraph yields one with Source (vacuously so when
no control file exists or it has no paragraphs). -/
theorem mergeEngineParas_first_para_has_source (pkg : Pkg) (cfg : Cfg)
    (existing : Option String) (paras : List ControlParagraph)
    (hok : mergeEngineParas pkg cfg existing = .ok paras)
    (hsrc : ∀ txt p ps, existing = some txt →
        ControlFile.parse txt = .ok ⟨p :: ps⟩ →
        p.has_entry "Source" = true) :
    paras.head?.map (fun q => q.has_entry "Source") = some true := by
  simp only [mergeEngineParas] at hok
  split at hok
  · exact absurd hok (by simp)
  · rename_i dsn hx
    split at hok
    · exact absurd hok (by simp)
    · rename_i gp0 hacq
      split at hok
      · exact absurd hok (by simp)
      · rename_i gp hm
        simp only [Except.ok.injEq] at hok
        have hgp0 : gp0.has_entry "Source" = true := by
          cases existing with
          | none =>
            simp only [sourceParaAcquire, Except.ok.injEq] at hacq
            rw [← hacq]
            simp [ControlParagraph.has_entry, ControlParagraph.add_entry,
              ControlParagraph.new, hasField]
          | some txt =>
            simp only [sourceParaAcquire] at hacq
            split at hacq
            · exact absurd hacq (by simp)
            · rename_i cf hparse
              split at hacq
              · rename_i p hhead
                simp only [Except.ok.injEq] at hacq
                rw [← hacq]
                obtain ⟨l⟩ := cf
                cases l with
                | nil => simp [List.head?] at hhead
                | cons q ps =>
                  have hq : q = p := by simpa [List.head?] using hhead
                  exact hsrc txt p ps rfl (by rw [hq] at hparse; exact hparse)
              · simp only [Except.ok.injEq] at hacq
                rw [← hacq]
                simp [ControlParagraph.has_entry, ControlParagraph.add_entry,
                  ControlParagraph.new, hasField]
        have hgp : gp.has_entry "Source" = true := by
          simp only [mergeSourcePara] at hm
          split at hm
          · exact absurd hm (by simp)
          · rename_i gp2 hsync
            simp only [Except.ok.injEq] at hm
            obtain ⟨s, hs⟩ := syncBuildDeps_ok_shape _ _ _ hsync
            rw [← hm]
            refine has_entry_setVcsHomepage_of _ _ _ ?_
            rw [hs]
            exact has_entry_update_entry_of _ _ _ _
              (has_entry_addDefaults_of cfg gp0 _ hgp0)
        rw [← hok]
        simp [hgp]

/-- Project model for the C8 witness: a crate with no dependencies and no
targets. -/
def pkgW8 : Pkg := ⟨"y", "2.0", none, none, none, [], []⟩

/-- The paragraphs produced by the C8 witness run (no existing control
file). -/
def parasW8 : List ControlParagraph :=
  match mergeEngineParas pkgW8 cfgX none with
  | .ok l => l
  | .error _ => []

/-- C8 witness: with no existing control file the concrete merged output's
first paragraph carries a Source field. -/
theorem mergeEngineParas_first_para_has_source_witness :
    parasW8.head?.map (fun q => q.has_entry "Source") = some true :=
  mergeEngineParas_first_para_has_source pkgW8 cfgX none parasW8 rfl
    (fun txt p ps h _ => by cases h)

/-- Writing one path leaves the content seen at any other path
unchanged. -/
theorem findKV_setKV_ne (l : List (String × String)) (q v p : String)
    (h : p ≠ q) : findKV (setKV l q v) p = findKV l p := by
  have hqp : ((q : String) == p) = false := by
    simp only [beq_eq_false_iff_ne]
    exact h.symm
  induction l with
  | nil =>
    simp only [setKV, findKV, hqp, Bool.false_eq_true, if_false]
  | cons kv t ih =>
    simp only [setKV]
    by_cases hk : (kv.1 == q) = true
    · have hk1 : kv.1 = q := by simpa using hk
      have hkp : (kv.1 == p) = false := by rw [hk1]; exact hqp
      rw [if_pos hk]
      simp only [findKV, hqp, hkp, Bool.false_eq_true, if_false, ih]
    · rw [if_neg hk]
      simp only [findKV, ih]

/-- Filesystem frame rule for a single write. -/
theorem lookup_write_ne (fs : FS) (q v p : String) (h : p ≠ q) :
    (fs.write q v).lookup p = fs.lookup p := by
  obtain ⟨l⟩ := fs
  exact findKV_setKV_ne l q v p h

/-- Project model for the C5 counterexample. -/
def pkgC5 : Pkg := ⟨"c5", "0.1.0", none, none, none, [], []⟩

/-- Filesystem for the C5 counterexample: a single-entry changelog (the
exact text this tool itself would generate) already exists. -/
def fsC5 : FS := ⟨[("debian/changelog",
  changelogText cfgX "rust-c5" "0.1.0-1"
    "  * Initial debianization by cargo.\n")]⟩

/-- C5 counterexample: with an existing SINGLE-entry changelog the run
ends in the unconditional `panic!` of `cargo_debianize.rs` line 152
(modelled as the `panicked` outcome), not in an error value returned to
the caller; so the hard failure is neither an explicit fallible result
nor restricted to multi-entry changelogs. -/
theorem changelog_single_entry_panics_cex :
    debianize pkgC5 cfgX fsC5 =
      (some (DebErr.panicked "Updating changelog not implemented, yet."),
       fsC5) := rfl

/-- C5 amended: whenever any changelog already exists — single-entry or
not — the run aborts unconditionally through the Rust `panic!`, leaving
the filesystem untouched. -/
theorem debianize_existing_changelog_panics (pkg : Pkg) (cfg : Cfg)
    (fs : FS) (c : String) (h : fs.lookup "debian/changelog" = some c) :
    debianize pkg cfg fs =
      (some (DebErr.panicked "Updating changelog not implemented, yet."),
       fs) := by
  simp only [debianize]
  split
  · rename_i hx
    exact absurd (xform_pkg_name_isSome pkg.name) (by rw [hx]; simp)
  · rw [h]

/-- Project model for the C5 witness. -/
def pkgW5 : Pkg := ⟨"w5", "1.0", none, none, none, [], []⟩

/-- Filesystem for the C5 witness: some pre-existing changelog text. -/
def fsW5 : FS := ⟨[("debian/changelog", "old changelog contents\n")]⟩

/-- C5 witness: the amended statement applied at a concrete run. -/
theorem debianize_existing_changelog_panics_witness :
    debianize pkgW5 cfgX fsW5 =
      (some (DebErr.panicked "Updating changelog not implemented, yet."),
       fsW5) :=
  debianize_existing_changelog_panics pkgW5 cfgX fsW5
    "old changelog contents\n" rfl

/-- Project model for the C3 counterexample. -/
def pkgC3 : Pkg := ⟨"c3", "1.0", none, none, none, [], []⟩

/-- Filesystem for the C3 counterexample: an existing control file whose
Build-Depends has an unbalanced parenthesis, and no changelog. -/
def fsC3 : FS := ⟨[("debian/control",
  "Source: rust-c3\nBuild-Depends: foo ((\n")]⟩

/-- C3 counterexample: the malformed Build-Depends aborts the run, but
`debian/changelog` — absent beforehand — has already been created by the
time the field is parsed, because the changelog step (lines 151-163)
precedes the Build-Depends parse (lines 217-232).  This refutes the part
of the claim that says no output file, including debian/changelog, is
modified. -/
theorem abort_after_changelog_write_cex :
    (debianize pkgC3 cfgX fsC3).1 =
      some (DebErr.human "unbalanced parenthesis in: foo ((") ∧
    fsC3.lookup "debian/changelog" = none ∧
    (debianize pkgC3 cfgX fsC3).2.lookup "debian/changelog" =
      some (changelogText cfgX "rust-c3" "1.0-1"
        "  * Initial debianization by cargo.\n") :=
  ⟨rfl, rfl, rfl⟩

/-- C3 amended: an aborting run leaves every output file other than
`debian/changelog` in its prior state — the control file, install files,
Makefile, compat, source/format and rules are never written before the
Build-Depends parse — but the fresh changelog may already have been
written. -/
theorem debianize_error_leaves_all_but_changelog (pkg : Pkg) (cfg : Cfg)
    (fs : FS) (e : DebErr) (p : String)
    (herr : (debianize pkg cfg fs).1 = some e)
    (hp : p ≠ "debian/changelog") :
    (debianize pkg cfg fs).2.lookup p = fs.lookup p := by
  cases hx : xform_pkg_name pkg.name with
  | none => simp only [debianize, hx]
  | some dsn =>
    cases hcl : fs.lookup "debian/changelog" with
    | some c => simp only [debianize, hx, hcl]
    | none =>
      simp only [debianize, hx, hcl] at herr ⊢
      cases hm : mergeEngine pkg cfg
          ((fs.write "debian/changelog"
             (changelogText cfg dsn (pkg.version ++ "-1")
               "  * Initial debianization by cargo.\n")).lookup
            "debian/control") with
      | error e2 =>
        simp only [hm]
        exact lookup_write_ne fs "debian/changelog" _ p hp
      | ok ctext =>
        simp only [hm] at herr
        simp at herr

/-- C3 witness: at the concrete aborting run of the counterexample the
control file itself is untouched. -/
theorem debianize_error_leaves_control_witness :
    (debianize pkgC3 cfgX fsC3).2.lookup "debian/control" =
      fsC3.lookup "debian/control" :=
  debianize_error_leaves_all_but_changelog pkgC3 cfgX fsC3
    (DebErr.human "unbalanced parenthesis in: foo ((") "debian/control"
    rfl (by decide)

/-- Project model for the C1 evaluation: one normal registry dependency
named `foo`, no targets. -/
def pkgC1 : Pkg := ⟨"mycrate", "0.1.0", none, none, none,
  [⟨"foo", DepKind.normal, false, false⟩], []⟩

set_option maxRecDepth 8000 in
/-- C1: Running the merge engine twice is NOT idempotent.  The first run
emits `rust-foo-dev`; the second run's lookup checks for the key
`rust-foo` (the transformed name without the `-dev` suffix the engine
itself appends, `cargo_debianize.rs` lines 297 and 304), misses, and
appends a duplicate `rust-foo-dev`, so the second output differs from the
first byte-wise exactly by the duplicated Build-Depends entry. -/
theorem buildDepends_not_idempotent_eval :
    mergeEngine pkgC1 cfgX none = .ok
      "Source: rust-mycrate\nPriority: optional\nSection: rust\nMaintainer: Debian Rust Team <rust@debian.org>\nUploaders: Jane Doe <jane@example.org>\nStandards-Version: 3.9.6\nBuild-Depends: debhelper (>= 9.20150101.1+nmu1), rustc, rust-foo-dev\n" ∧
    mergeEngine pkgC1 cfgX (some
      "Source: rust-mycrate\nPriority: optional\nSection: rust\nMaintainer: Debian Rust Team <rust@debian.org>\nUploaders: Jane Doe <jane@example.org>\nStandards-Version: 3.9.6\nBuild-Depends: debhelper (>= 9.20150101.1+nmu1), rustc, rust-foo-dev\n")
      = .ok
      "Source: rust-mycrate\nPriority: optional\nSection: rust\nMaintainer: Debian Rust Team <rust@debian.org>\nUploaders: Jane Doe <jane@example.org>\nStandards-Version: 3.9.6\nBuild-Depends: debhelper (>= 9.20150101.1+nmu1), rustc, rust-foo-dev, rust-foo-dev\n" ∧
    ("Source: rust-mycrate\nPriority: optional\nSection: rust\nMaintainer: Debian Rust Team <rust@debian.org>\nUploaders: Jane Doe <jane@example.org>\nStandards-Version: 3.9.6\nBuild-Depends: debhelper (>= 9.20150101.1+nmu1), rustc, rust-foo-dev\n" :
      String) ≠
    "Source: rust-mycrate\nPriority: optional\nSection: rust\nMaintainer: Debian Rust Team <rust@debian.org>\nUploaders: Jane Doe <jane@example.org>\nStandards-Version: 3.9.6\nBuild-Depends: debhelper (>= 9.20150101.1+nmu1), rustc, rust-foo-dev, rust-foo-dev\n" :=
  ⟨rfl, rfl, by decide⟩

/-- Project model for the C2 evaluation: one normal registry dependency
named `foo`. -/
def pkgC2 : Pkg := ⟨"c2crate", "0.1.0", none, none, none,
  [⟨"foo", DepKind.normal, false, false⟩], []⟩

/-- Acquired paragraph for the C2 evaluation: the existing Build-Depends
already contains the `-dev`-suffixed package `rust-foo-dev`. -/
def gpC2 : ControlParagraph := ⟨[("Build-Depends", "rust-foo-dev")]⟩

/-- C2: The synchronization appends `rust-foo-dev` even though a
`rust-foo-dev` entry is already present in the lookup, because the code
looks up the bare transformed name `rust-foo`
(`cargo_debianize.rs` line 297) while appending `rust-foo-dev`
(line 304) — refuting the claimed `<transformed-name>-dev` membership
test. -/
theorem syncBuildDeps_append_despite_dev_entry :
    syncBuildDeps pkgC2 gpC2 = .ok ⟨[("Build-Depends",
      "rust-foo-dev, debhelper (>= 9.20150101.1+nmu1), rustc, rust-foo-dev")]⟩
    := rfl

/-- Project model for the C6 evaluation: one release-profile library
target. -/
def pkgC6 : Pkg := ⟨"mylib", "0.1.0", none, none, none, [],
  [⟨"mylib", true, "release", "src/lib.rs", ⟨"abc123", "-abc123"⟩⟩]⟩

/-- Filesystem for the C6 evaluation: the `.install` file already exists
with human-edited content. -/
def fsC6 : FS := ⟨[("debian/rust-mylib-0.1.0.install", "MY EDIT\n")]⟩

/-- C6: A successful full pass regenerates
`debian/rust-mylib-0.1.0.install` unconditionally (`File::create` at
`cargo_debianize.rs` line 450), destroying the pre-existing human edit —
contradicting the claim and the command's own usage text, which says it
never overrides an existing file. -/
theorem install_file_overwritten_eval :
    fsC6.lookup "debian/rust-mylib-0.1.0.install" = some "MY EDIT\n" ∧
    (debianize pkgC6 cfgX fsC6).1 = none ∧
    (debianize pkgC6 cfgX fsC6).2.lookup "debian/rust-mylib-0.1.0.install" =
      some (libInstallText "mylib") ∧
    libInstallText "mylib" ≠ "MY EDIT\n" :=
  ⟨rfl, rfl, rfl, by decide⟩
